import Mathlib

/-!
Verification development for the Breakout simulation core: a shallow
embedding in Lean 4 of the arena allocator, resource handles, the
entity/component store, the draw-submission buffer, the collision
geometry and the gameplay state machine, together with theorems about
the behaviours documented in the specification.

Machine integers (`u32`, `size_t`) are modelled as `Nat` with explicit
`% 2^32` where wrap-around matters; `f32` quantities are modelled as
real numbers.  Fallible operations (assertion failures) return
`Option`.
-/

namespace Breakout

/-! ## Resource handles

From `ResGetType` / `ResGetIndex` / `ResCreateHandle`: a handle is a
`u32` whose top byte is the resource kind and whose low 24 bits are the
slot index.  The `int → u32` cast and the `u32` shift are modelled with
explicit `% 2^32`. -/

def ResGetType (handle : Nat) : Nat :=
  (handle >>> 24) &&& 0xff

def ResGetIndex (handle : Nat) : Nat :=
  handle &&& 0x00ffffff

def ResCreateHandle (index ty : Nat) : Nat :=
  (((ty % 2 ^ 32) <<< 24) % 2 ^ 32 ||| (index &&& 0x00ffffff)) % 2 ^ 32

/-! ## Memory arena

From `MemoryArena` in the allocator header.  `base` never moves, so a
returned pointer is identified with its offset `used` from `base`; an
allocation of size `n` at offset `o` occupies the region `[o, o + n)`.
The `assert((used + size) <= capacity)` is a fatal precondition check,
modelled by returning `none`. -/

structure MemoryArena where
  capacity : Nat
  used : Nat
  deriving Repr, DecidableEq

/-- `Init(capacity, buffer)` on a freshly constructed arena: the default
member initializer leaves `used = 0`; `Init` sets the capacity (and the
base pointer, which the model identifies with offset 0). -/
def MemoryArena.Init (capacity : Nat) : MemoryArena :=
  { capacity := capacity, used := 0 }

/-- `PushSize(size)`: asserts `used + size <= capacity`, returns the
offset `used` and bumps `used` by `size`. -/
def MemoryArena.PushSize (a : MemoryArena) (size : Nat) :
    Option (Nat × MemoryArena) :=
  if a.used + size ≤ a.capacity then
    some (a.used, { a with used := a.used + size })
  else
    none

/-- A sequence of `PushSize` requests; returns the list of
(offset, size) regions handed out and the final arena. -/
def MemoryArena.PushSeq (a : MemoryArena) :
    List Nat → Option (List (Nat × Nat) × MemoryArena)
  | [] => some ([], a)
  | n :: ns =>
    match a.PushSize n with
    | some (off, b) =>
      match b.PushSeq ns with
      | some (rs, c) => some ((off, n) :: rs, c)
      | none => none
    | none => none

/-- Two regions `(offset, size)` are disjoint as half-open intervals. -/
def RegionsDisjoint (r s : Nat × Nat) : Prop :=
  r.1 + r.2 ≤ s.1 ∨ s.1 + s.2 ≤ r.1

/-! ## Components and `GameObject::GetComponent`

The component variants are the three concrete classes; the
`COMPONENT_NAME` macro gives each both its `ComponentName()` (virtual)
and `ClassName()` (static), the stringified class name.  A component
instance additionally carries its state, which the lookup never
inspects; it is collapsed into an opaque `data` tag so that distinct
instances of one variant stay distinguishable. -/

inductive ComponentKind where
  | playerComponent
  | ballComponent
  | blockComponent
  deriving Repr, DecidableEq

def ComponentName : ComponentKind → String
  | .playerComponent => "PlayerComponent"
  | .ballComponent => "BallComponent"
  | .blockComponent => "BlockComponent"

structure Component where
  kind : ComponentKind
  data : Nat
  deriving Repr, DecidableEq

/-- `GameObject::GetComponent<T>()`: linear scan of `m_components` in
add-order, returning the first component whose `ComponentName()`
compares equal (`strcmp == 0`) to `T::ClassName()`; `nullptr` (here
`none`) when no component matches. -/
def GetComponent (comps : List Component) (k : ComponentKind) :
    Option Component :=
  match comps with
  | [] => none
  | c :: rest =>
    if ComponentName c.kind = ComponentName k then some c
    else GetComponent rest k

/-! ## Draw submission buffer

From `DrawManager` (revision with separate texture/font lists).  The
fields of a `DrawItem` other than its `type` and `z_index` never
influence bookkeeping or ordering; they are collapsed into an opaque
`payload`. -/

inductive DrawItemType where
  | texture
  | font
  deriving Repr, DecidableEq

structure DrawItem where
  type : DrawItemType := .texture
  z_index : Int := 0
  payload : Nat := 0
  deriving Repr, DecidableEq

structure DrawManager where
  textureItems : List DrawItem
  fontItems : List DrawItem
  deriving Repr, DecidableEq

def DrawManager.empty : DrawManager :=
  { textureItems := [], fontItems := [] }

/-- `DrawManager::Add`: appends the item to the list selected by its
type. -/
def DrawManager.Add (m : DrawManager) (item : DrawItem) : DrawManager :=
  match item.type with
  | .texture => { m with textureItems := m.textureItems ++ [item] }
  | .font => { m with fontItems := m.fontItems ++ [item] }

/-- The postcondition `std::sort` guarantees for the comparator
`lhs.z_index < rhs.z_index`: adjacent elements are never strictly
out of order, i.e. the list is weakly sorted by `z_index`. -/
def SortedByZ (l : List DrawItem) : Prop :=
  l.Pairwise (fun a b => a.z_index ≤ b.z_index)

instance (l : List DrawItem) : Decidable (SortedByZ l) :=
  inferInstanceAs (Decidable (l.Pairwise _))

/-- `DrawManager::Dispatch` sorts `m_textureItems` with `std::sort`
(comparator `z_index <`) and then emits them in the sorted order.
`std::sort` promises only a permutation of the input that is sorted
with respect to the comparator — it is not a stable sort — so the
emitted textured sequence is exactly characterised by this relation. -/
def DispatchTexturedOutputs (m : DrawManager) (out : List DrawItem) : Prop :=
  out.Perm m.textureItems ∧ SortedByZ out

instance (m : DrawManager) (out : List DrawItem) :
    Decidable (DispatchTexturedOutputs m out) :=
  inferInstanceAs (Decidable (_ ∧ _))

/-- `DrawManager::Record`: `std::copy` with a `back_inserter` appends
the current items of both lists to the record. -/
structure RecordedDrawItems where
  textureItems : List DrawItem
  fontItems : List DrawItem
  deriving Repr, DecidableEq

def DrawManager.Record (m : DrawManager) (r : RecordedDrawItems) :
    RecordedDrawItems :=
  { textureItems := r.textureItems ++ m.textureItems
    fontItems := r.fontItems ++ m.fontItems }

/-! ## Entity store

From `GameObject` / `GameObjectManager`.  Entities live in the
manager's arena and are never moved, so a `GameObject*` is modelled as
the index of its slot in `heap` (slots are appended in allocation
order).  Of an entity's fields only `m_id` matters to the store
bookkeeping; the intrusive free list threaded through `m_next` is
represented by the list of slot indices in chain order (`m_firstFree`
is its head, each node's `m_next` the rest).  `Create`'s
`assert(m_genId + 1 < std::numeric_limits<u32>::max())` is modelled by
returning `none`; the guard keeps `m_genId` below `2^32 - 1`, so plain
`Nat` arithmetic is faithful. -/

structure GameObject where
  id : Nat
  deriving Repr, DecidableEq, Inhabited

structure GameObjectManager where
  genId : Nat
  heap : List GameObject
  firstFree : List Nat
  gos : List Nat
  deriving Repr, DecidableEq

/-- `std::numeric_limits<u32>::max()`. -/
def U32_MAX : Nat := 2 ^ 32 - 1

/-- The id stored in slot `s` (out-of-range reads yield the
default-constructed object, id 0). -/
def GameObjectManager.idAt (m : GameObjectManager) (s : Nat) : Nat :=
  ((m.heap[s]?).getD default).id

/-- `GameObjectManager::Init()`: empty arena, empty live list, no free
list, generation counter 0. -/
def initMgr : GameObjectManager :=
  { genId := 0, heap := [], firstFree := [], gos := [] }

/-- `GameObjectManager::Create()`: pop the free list head and `Clear()`
it (which zeroes `m_id` before `SetId` overwrites it), or bump-allocate
a fresh slot; assert the generation counter is not about to overflow;
stamp the entity with `m_genId++` and append it to the live list.
Returns the slot together with the new manager state. -/
def GameObjectManager.Create (m : GameObjectManager) :
    Option (Nat × GameObjectManager) :=
  match m.firstFree with
  | s :: rest =>
    if m.genId + 1 < U32_MAX then
      some (s, { genId := m.genId + 1
                 heap := m.heap.set s { id := m.genId }
                 firstFree := rest
                 gos := m.gos ++ [s] })
    else none
  | [] =>
    if m.genId + 1 < U32_MAX then
      some (m.heap.length, { genId := m.genId + 1
                             heap := m.heap ++ [{ id := m.genId }]
                             firstFree := []
                             gos := m.gos ++ [m.heap.length] })
    else none

/-- The loop body of `GameObjectManager::GetIndex`: position of the
first live entry whose id equals `goId`, `none` when no entry
matches. -/
def GetIndexLoop (heap : List GameObject) (goId : Nat) :
    List Nat → Option Nat
  | [] => none
  | s :: rest =>
    if ((heap[s]?).getD default).id = goId then some 0
    else (GetIndexLoop heap goId rest).map (· + 1)

/-- `GameObjectManager::GetIndex(go)`: `idx` starts at 0 and is only
assigned on a match, so a miss returns index 0. -/
def GameObjectManager.GetIndex (m : GameObjectManager) (s : Nat) : Nat :=
  (GetIndexLoop m.heap (m.idAt s) m.gos).getD 0

/-- `RemoveByIndex(data, index)`: overwrite `data[index]` with
`data.back()` and `pop_back()` (swap-with-last removal; calling it on
an empty vector is UB in the source and never happens there). -/
def RemoveByIndex {α : Type} (l : List α) (i : Nat) : List α :=
  match l.getLast? with
  | some x => (l.set i x).dropLast
  | none => []

/-- `GameObjectManager::Destroy(go)`: push the entity onto the free
list, then remove it from the live list by id lookup plus
swap-with-last. -/
def GameObjectManager.Destroy (m : GameObjectManager) (s : Nat) :
    GameObjectManager :=
  let m1 := { m with firstFree := s :: m.firstFree }
  let destroyIdx := m1.GetIndex s
  { m1 with gos := RemoveByIndex m1.gos destroyIdx }

/-- A client call into the store: `Create()`, or `Destroy` on the
`k`-th entity of the live list (an out-of-range `k` stands for "no
call" so that call sequences are arbitrary lists). -/
inductive StoreOp where
  | create
  | destroy (k : Nat)
  deriving Repr, DecidableEq

def storeStep (m : GameObjectManager) : StoreOp → Option GameObjectManager
  | .create => m.Create.map (·.2)
  | .destroy k =>
    if k < m.gos.length then some (m.Destroy (m.gos.getD k 0)) else some m

def storeExec (m : GameObjectManager) : List StoreOp → Option GameObjectManager
  | [] => some m
  | op :: ops =>
    match storeStep m op with
    | some m1 => storeExec m1 ops
    | none => none

/-! ## Gameplay state machine

From `UpdateGame` and the pieces of `GameState` it reads and writes.
Time (`GetTime`, `m_resetTimer`) is modelled with `ℚ`.  The work done
by `goMgr.Tick(dt)` followed by `collisionMgr.Tick()` is arbitrary
component code that may mutate the whole game state, so it enters the
model as an uninterpreted function `tickFn`; likewise
`DestroyScene(); InitScene()` enters as `resetFn` and the overlay text
item built by `PostGameResultMessage` as `msgItem`. -/

inductive GameplayState where
  | RunGame
  | RunMenu
  | PreGameWin
  | PreGameOver
  | GameOver
  | GameWin
  | Quit
  deriving Repr, DecidableEq

def GAME_RESET_DIFF : ℚ := 2

structure GState where
  gameplayState : GameplayState
  blocksNum : Int
  hitScore : Int
  drawMgr : DrawManager
  recordedDrawings : RecordedDrawItems
  resetTimer : ℚ
  deriving DecidableEq

/-- The `KEY_ESCAPE` check at the top of the `RunGame` case (no `break`
follows it: the ticks and the win check still run). -/
def escStep (esc : Bool) (st : GState) : GState :=
  if esc then { st with gameplayState := .RunMenu } else st

/-- `PostGameResultMessage(text, color)`: reset the scene if the timer
elapsed; otherwise replay the frozen draw buffer (`Copy`) and add the
overlay message item. -/
def PostGameResultMessage (time : ℚ) (resetFn : GState → GState)
    (msgItem : DrawItem) (st : GState) : GState :=
  if time - st.resetTimer > GAME_RESET_DIFF then
    resetFn st
  else
    let copied : DrawManager :=
      { textureItems := st.drawMgr.textureItems ++ st.recordedDrawings.textureItems
        fontItems := st.drawMgr.fontItems ++ st.recordedDrawings.fontItems }
    { st with drawMgr := copied.Add msgItem }

/-- `UpdateGame(dt)`: the full `switch` on `g_gameState.gameplayState`.
States without a `case` (RunMenu, Quit) fall through unchanged. -/
def UpdateGame (esc : Bool) (time : ℚ) (tickFn resetFn : GState → GState)
    (msgItem : DrawItem) (st : GState) : GState :=
  match st.gameplayState with
  | .RunGame =>
    let st2 := tickFn (escStep esc st)
    if st2.blocksNum = st2.hitScore then
      { st2 with gameplayState := .PreGameWin }
    else st2
  | .GameOver =>
    if time - st.resetTimer > GAME_RESET_DIFF then resetFn st
    else PostGameResultMessage time resetFn msgItem st
  | .GameWin =>
    if time - st.resetTimer > GAME_RESET_DIFF then resetFn st
    else PostGameResultMessage time resetFn msgItem st
  | .PreGameOver =>
    { st with recordedDrawings := st.drawMgr.Record st.recordedDrawings
              resetTimer := time
              gameplayState := .GameOver }
  | .PreGameWin =>
    { st with recordedDrawings := st.drawMgr.Record st.recordedDrawings
              resetTimer := time
              gameplayState := .GameWin }
  | .RunMenu => st
  | .Quit => st

/-! ## Collision geometry

From `AABBvsCircle` and the `BallComponent` resolution callbacks.
`f32` values and the raymath vector helpers are modelled over `ℝ`
(`sqrtf` becomes `Real.sqrt`, `fabsf` becomes `|·|`); the comparisons
on reals are classical, so these definitions are noncomputable. -/

structure Vec2 where
  x : ℝ
  y : ℝ

def Vector2Subtract (a b : Vec2) : Vec2 := ⟨a.x - b.x, a.y - b.y⟩

def Vector2Add (a b : Vec2) : Vec2 := ⟨a.x + b.x, a.y + b.y⟩

def Vector2Negate (a : Vec2) : Vec2 := ⟨-a.x, -a.y⟩

def Vector2Scale (a : Vec2) (s : ℝ) : Vec2 := ⟨a.x * s, a.y * s⟩

def Vector2DotProduct (a b : Vec2) : ℝ := a.x * b.x + a.y * b.y

/-- raymath `Vector2Clamp`: componentwise
`fminf(max, fmaxf(min, v))`. -/
def Vector2Clamp (v lo hi : Vec2) : Vec2 :=
  ⟨min hi.x (max lo.x v.x), min hi.y (max lo.y v.y)⟩

noncomputable def Vector2Length (v : Vec2) : ℝ :=
  Real.sqrt (v.x * v.x + v.y * v.y)

/-- raymath `Vector2Normalize`: scales by the reciprocal length when
the length is positive, otherwise returns the zero vector. -/
noncomputable def Vector2Normalize (v : Vec2) : Vec2 :=
  if Vector2Length v > 0 then
    ⟨v.x / Vector2Length v, v.y / Vector2Length v⟩
  else ⟨0, 0⟩

structure AABB where
  center : Vec2
  halfExtents : Vec2

structure Circle where
  center : Vec2
  radius : ℝ

structure CollisionManifold where
  diff : Vec2
  penetration : ℝ
  collides : Prop

/-- `AABBvsCircle`: closest-point-clamp manifold computation. -/
noncomputable def AABBvsCircle (aabb : AABB) (circle : Circle) :
    CollisionManifold :=
  let diff := Vector2Subtract circle.center aabb.center
  let clampedDiff :=
    Vector2Clamp diff (Vector2Negate aabb.halfExtents) aabb.halfExtents
  let closestPoint := Vector2Add aabb.center clampedDiff
  let distToClosest := Vector2Subtract closestPoint circle.center
  let diffToClosest := Vector2Length distToClosest
  { diff := distToClosest
    penetration := circle.radius - |diffToClosest|
    collides := diffToClosest ≤ circle.radius }

/-- `BallComponent::INIT_VELOCITY`. -/
def INIT_VELOCITY : Vec2 := ⟨100, -660⟩

/-- `BallComponent::ResolvePlayerCollision`, parametrised by the two
centers, the paddle size and the ball's velocity (the quantities the
source reads). -/
noncomputable def ResolvePlayerCollision (centerPlayer centerBall : Vec2)
    (playerSize : Vec2) (velocity : Vec2) : Vec2 :=
  let diff := centerBall.x - centerPlayer.x
  let intensity : ℝ := 2.5
  let rat := diff / (playerSize.x * 0.5)
  let prevVelocity := velocity
  let vx := INIT_VELOCITY.x * intensity * rat
  let vy := -1 * |velocity.y|
  Vector2Scale (Vector2Normalize ⟨vx, vy⟩) (Vector2Length prevVelocity)

inductive Collision where
  | nothing
  | top
  | bottom
  | left
  | right

/-- The face-classification chain of
`BallComponent::ResolveBlockCollision` (first positive dot product in
source order wins: top, bottom, right, left). -/
noncomputable def ClassifyCollision (norm : Vec2) : Collision :=
  open Classical in
  if Vector2DotProduct norm ⟨0, 1⟩ > 0 then .top
  else if Vector2DotProduct norm ⟨0, -1⟩ > 0 then .bottom
  else if Vector2DotProduct norm ⟨1, 0⟩ > 0 then .right
  else if Vector2DotProduct norm ⟨-1, 0⟩ > 0 then .left
  else .nothing

/-- `BallComponent::ResolveBlockCollision`: classify the face from the
normalised separation vector, then push the position out by
`penetration` and update the velocity exactly as the `switch` does
(note the literal `m_velocity.x -= m_velocity.x` in the left/right
cases).  Returns the new `(m_position, m_velocity)`. -/
noncomputable def ResolveBlockCollision (diff : Vec2) (penetration : ℝ)
    (position velocity : Vec2) : Vec2 × Vec2 :=
  let norm := Vector2Normalize diff
  match ClassifyCollision norm with
  | .top =>
    (⟨position.x, position.y - penetration⟩, ⟨velocity.x, -velocity.y⟩)
  | .bottom =>
    (⟨position.x, position.y + penetration⟩, ⟨velocity.x, -velocity.y⟩)
  | .left =>
    (⟨position.x - penetration, position.y⟩, ⟨velocity.x - velocity.x, velocity.y⟩)
  | .right =>
    (⟨position.x + penetration, position.y⟩, ⟨velocity.x - velocity.x, velocity.y⟩)
  | .nothing => (position, velocity)

/-! ## Helper lemmas -/

theorem Vec2.ext_iff {a b : Vec2} : a = b ↔ a.x = b.x ∧ a.y = b.y := by
  cases a; cases b; simp

theorem list_set_getElem_self {α : Type} (l : List α) (i : Nat)
    (h : i < l.length) : l.set i l[i] = l := by
  apply List.ext_getElem?
  intro j
  by_cases hij : i = j
  · subst hij
    rw [List.getElem?_set_self h, List.getElem?_eq_getElem h]
  · rw [List.getElem?_set_ne hij]

/-- `RemoveByIndex` at a valid index returns a permutation of the list
with the element at that index removed. -/
theorem removeByIndex_perm {α : Type} (l : List α) (i : Nat)
    (h : i < l.length) : (RemoveByIndex l i).Perm (l.eraseIdx i) := by
  have hne : l ≠ [] := List.ne_nil_of_length_pos (by omega)
  have hrem : RemoveByIndex l i = (l.set i (l.getLast hne)).dropLast := by
    unfold RemoveByIndex
    rw [List.getLast?_eq_getLast l hne]
  rw [hrem]
  rcases Nat.lt_or_ge i (l.length - 1) with hi | hi
  · have hd : l.drop (i + 1) ≠ [] := by
      apply List.ne_nil_of_length_pos
      rw [List.length_drop]
      omega
    rw [List.set_eq_take_append_cons_drop, if_pos h,
      List.dropLast_append_cons, List.eraseIdx_eq_take_drop_succ,
      List.dropLast_cons_of_ne_nil hd]
    apply List.Perm.append_left
    have hxd : l.getLast hne = (l.drop (i + 1)).getLast hd := by
      rw [List.getLast_eq_getElem, List.getLast_eq_getElem, List.getElem_drop]
      congr 1
      rw [List.length_drop]
      omega
    have h1 : (l.getLast hne :: (l.drop (i + 1)).dropLast).Perm
        ((l.drop (i + 1)).dropLast ++ [l.getLast hne]) :=
      (List.perm_append_singleton _ _).symm
    have h2 : (l.drop (i + 1)).dropLast ++ [l.getLast hne] = l.drop (i + 1) := by
      rw [hxd]
      exact List.dropLast_concat_getLast hd
    exact h1.trans (by rw [h2])
  · have hx : l.getLast hne = l[i] := by
      rw [List.getLast_eq_getElem]
      congr 1
      omega
    rw [hx, list_set_getElem_self l i h,
      List.dropLast_eq_eraseIdx (by omega : i + 1 = l.length)]

theorem removeByIndex_subset {α : Type} (l : List α) (i : Nat)
    (h : i < l.length) : ∀ a ∈ RemoveByIndex l i, a ∈ l := by
  intro a ha
  have := ((removeByIndex_perm l i h).mem_iff).mp ha
  exact (List.eraseIdx_sublist l i).mem this

theorem nodup_eraseIdx_not_mem {α : Type} (l : List α) (i : Nat)
    (h : i < l.length) (hnd : l.Nodup) : l[i] ∉ l.eraseIdx i := by
  intro hmem
  rw [List.eraseIdx_eq_take_drop_succ] at hmem
  have hdecomp : l.take i ++ l[i] :: l.drop (i + 1) = l := by
    rw [List.getElem_cons_drop, List.take_append_drop]
  have hnd2 : (l.take i ++ l[i] :: l.drop (i + 1)).Nodup := by
    rw [hdecomp]; exact hnd
  rw [List.nodup_append] at hnd2
  rcases List.mem_append.mp hmem with hmem1 | hmem2
  · exact hnd2.2.2 hmem1 (List.mem_cons_self _ _)
  · exact (List.nodup_cons.mp hnd2.2.1).1 hmem2

/-- `GetIndexLoop` misses: no live entry has the requested id. -/
theorem getIndexLoop_eq_none (heap : List GameObject) (goId : Nat)
    (l : List Nat) (h : ∀ s ∈ l, ((heap[s]?).getD default).id ≠ goId) :
    GetIndexLoop heap goId l = none := by
  induction l with
  | nil => rfl
  | cons s rest ih =>
    unfold GetIndexLoop
    rw [if_neg (h s (List.mem_cons_self s rest)), ih]
    · rfl
    · exact fun s2 hs2 => h s2 (List.mem_cons_of_mem s hs2)

/-- `GetIndexLoop` hits: the first matching entry's position is
returned. -/
theorem getIndexLoop_eq_some (heap : List GameObject) (goId : Nat)
    (l1 : List Nat) (s : Nat) (l2 : List Nat)
    (h1 : ∀ s2 ∈ l1, ((heap[s2]?).getD default).id ≠ goId)
    (h2 : ((heap[s]?).getD default).id = goId) :
    GetIndexLoop heap goId (l1 ++ s :: l2) = some l1.length := by
  induction l1 with
  | nil =>
    unfold GetIndexLoop
    simp [h2]
  | cons p ps ih =>
    unfold GetIndexLoop
    rw [List.cons_append]
    simp only []
    rw [if_neg (h1 p (List.mem_cons_self p ps)),
      ih (fun s2 hs2 => h1 s2 (List.mem_cons_of_mem p hs2))]
    rfl

/-! ## Claim C9: resource-handle round trip -/

/-- Claim C9: for every slot index below `2^24` and every resource type
fitting in one byte, `ResGetType` and `ResGetIndex` recover exactly the
arguments of `ResCreateHandle`. -/
theorem res_handle_roundtrip (index ty : Nat)
    (hindex : index < 2 ^ 24) (hty : ty < 256) :
    ResGetType (ResCreateHandle index ty) = ty ∧
    ResGetIndex (ResCreateHandle index ty) = index := by
  have hty32 : ty % 2 ^ 32 = ty :=
    Nat.mod_eq_of_lt (lt_of_lt_of_le hty (by norm_num))
  have hmask : (0x00ffffff : Nat) = 2 ^ 24 - 1 := by norm_num
  have hidx : index &&& 0x00ffffff = index := by
    rw [hmask, Nat.and_pow_two_sub_one_eq_mod, Nat.mod_eq_of_lt hindex]
  have hshlt : ty <<< 24 < 2 ^ 32 := by
    rw [Nat.shiftLeft_eq]
    calc ty * 2 ^ 24 < 256 * 2 ^ 24 :=
        (Nat.mul_lt_mul_right (by norm_num)).mpr hty
      _ = 2 ^ 32 := by norm_num
  have hcreate : ResCreateHandle index ty = (ty <<< 24) ||| index := by
    unfold ResCreateHandle
    rw [hty32, hidx, Nat.mod_eq_of_lt hshlt,
      Nat.mod_eq_of_lt (Nat.or_lt_two_pow hshlt (lt_trans hindex (by norm_num)))]
  constructor
  · unfold ResGetType
    rw [hcreate]
    have h1 : (ty <<< 24 ||| index) >>> 24 = ty := by
      apply Nat.eq_of_testBit_eq
      intro j
      rw [Nat.testBit_shiftRight, Nat.testBit_or, Nat.testBit_shiftLeft]
      have hb : index.testBit (24 + j) = false :=
        Nat.testBit_lt_two_pow
          (lt_of_lt_of_le hindex (Nat.pow_le_pow_right (by norm_num) (by omega)))
      have harith : 24 + j - 24 = j := by omega
      simp [hb, harith]
    rw [h1]
    have hff : (0xff : Nat) = 2 ^ 8 - 1 := by norm_num
    rw [hff, Nat.and_pow_two_sub_one_eq_mod,
      Nat.mod_eq_of_lt (lt_of_lt_of_le hty (by norm_num))]
  · unfold ResGetIndex
    rw [hcreate, hmask, Nat.and_pow_two_sub_one_eq_mod]
    apply Nat.eq_of_testBit_eq
    intro j
    rw [Nat.testBit_mod_two_pow, Nat.testBit_or, Nat.testBit_shiftLeft]
    by_cases hj : j < 24
    · have hge : ¬ (j ≥ 24) := by omega
      simp [hj, hge]
    · have hb : index.testBit j = false :=
        Nat.testBit_lt_two_pow
          (lt_of_lt_of_le hindex (Nat.pow_le_pow_right (by norm_num) (by omega)))
      simp [hj, hb]

/-- Witness for C9 at index 123, type 3 (`RES_TEXTURE`). -/
theorem res_handle_roundtrip_witness :
    (123 < 2 ^ 24 ∧ 3 < 256) ∧
    (ResGetType (ResCreateHandle 123 3) = 3 ∧
      ResGetIndex (ResCreateHandle 123 3) = 123) :=
  ⟨⟨by norm_num, by norm_num⟩,
    res_handle_roundtrip 123 3 (by norm_num) (by norm_num)⟩

/-! ## Claim C4: Dispatch ordering -/

/-- Claim C4 fails on the code: `Dispatch` sorts with `std::sort`,
which guarantees only a `z_index`-sorted permutation.  For two textured
items with equal `z_index` added in order `a, b`, the reversed emission
`[b, a]` satisfies everything `std::sort` promises, so the emitted
order of equal-depth items is not the insertion order and the output is
not a deterministic function of the `Add` calls. -/
theorem dispatch_unstable_on_equal_z :
    DispatchTexturedOutputs
      ((DrawManager.empty.Add
          ({ type := .texture, z_index := 0, payload := 0 } : DrawItem)).Add
        ({ type := .texture, z_index := 0, payload := 1 } : DrawItem))
      [({ type := .texture, z_index := 0, payload := 1 } : DrawItem),
       ({ type := .texture, z_index := 0, payload := 0 } : DrawItem)] ∧
    [({ type := .texture, z_index := 0, payload := 1 } : DrawItem),
       ({ type := .texture, z_index := 0, payload := 0 } : DrawItem)] ≠
      [({ type := .texture, z_index := 0, payload := 0 } : DrawItem),
       ({ type := .texture, z_index := 0, payload := 1 } : DrawItem)] := by
  constructor
  · constructor
    · decide
    · decide
  · decide

/-! ## Claim C8: GetComponent lookup -/

/-- Claim C8: `GetComponent` returns the first component in add-order
whose component name matches the requested class name, and `none` when
no attached component matches. -/
theorem getComponent_first_match (comps : List Component) (k : ComponentKind) :
    ((∀ c ∈ comps, ComponentName c.kind ≠ ComponentName k) →
      GetComponent comps k = none) ∧
    (∀ (pre : List Component) (c : Component) (post : List Component),
      comps = pre ++ c :: post →
      ComponentName c.kind = ComponentName k →
      (∀ c2 ∈ pre, ComponentName c2.kind ≠ ComponentName k) →
      GetComponent comps k = some c) := by
  constructor
  · intro h
    induction comps with
    | nil => rfl
    | cons c rest ih =>
      unfold GetComponent
      rw [if_neg (h c (List.mem_cons_self c rest))]
      exact ih fun c2 hc2 => h c2 (List.mem_cons_of_mem c hc2)
  · intro pre c post hcomps hc hpre
    subst hcomps
    induction pre with
    | nil =>
      unfold GetComponent
      simp only [List.nil_append]
      rw [if_pos hc]
    | cons p ps ih =>
      unfold GetComponent
      rw [List.cons_append]
      simp only []
      rw [if_neg (hpre p (List.mem_cons_self p ps))]
      exact ih fun c2 hc2 => hpre c2 (List.mem_cons_of_mem p hc2)

/-- Witness for C8: on `[ball, player(1), player(2)]`, looking up
`PlayerComponent` returns the first player instance, and looking up
`BlockComponent` returns `none`. -/
theorem getComponent_first_match_witness :
    GetComponent
      [{ kind := .ballComponent, data := 0 },
       { kind := .playerComponent, data := 1 },
       { kind := .playerComponent, data := 2 }] .playerComponent =
      some { kind := .playerComponent, data := 1 } ∧
    GetComponent
      [{ kind := .ballComponent, data := 0 },
       { kind := .playerComponent, data := 1 },
       { kind := .playerComponent, data := 2 }] .blockComponent = none :=
  ⟨(getComponent_first_match
        [⟨.ballComponent, 0⟩, ⟨.playerComponent, 1⟩, ⟨.playerComponent, 2⟩]
        .playerComponent).2
      [⟨.ballComponent, 0⟩] ⟨.playerComponent, 1⟩ [⟨.playerComponent, 2⟩]
      (by decide) (by decide) (by decide),
    (getComponent_first_match
        [⟨.ballComponent, 0⟩, ⟨.playerComponent, 1⟩, ⟨.playerComponent, 2⟩]
        .blockComponent).1 (by decide)⟩

/-! ## Claim C5: arena PushSize -/

/-- Generalised `PushSeq` specification: starting from any arena with
`used + Σ sizes ≤ capacity`, every request succeeds, the capacity never
changes, `used` grows by exactly the sum, every returned region lies in
`[initial used, final used)`, and the regions come back in
address order. -/
theorem pushSeq_spec (ns : List Nat) (a : MemoryArena)
    (h : a.used + ns.sum ≤ a.capacity) :
    ∃ rs b, a.PushSeq ns = some (rs, b) ∧
      b.capacity = a.capacity ∧
      b.used = a.used + ns.sum ∧
      (∀ r ∈ rs, a.used ≤ r.1 ∧ r.1 + r.2 ≤ b.used) ∧
      rs.Pairwise (fun r s => r.1 + r.2 ≤ s.1) := by
  induction ns generalizing a with
  | nil => exact ⟨[], a, rfl, rfl, by simp, by simp, by simp⟩
  | cons n ns ih =>
    have hsum : (n :: ns).sum = n + ns.sum := by simp
    have hpush : a.PushSize n = some (a.used, { a with used := a.used + n }) := by
      unfold MemoryArena.PushSize
      rw [if_pos (by rw [hsum] at h; omega)]
    obtain ⟨rs, b, hseq, hcap, hused, hbounds, hpair⟩ :=
      ih { a with used := a.used + n } (by simp only []; rw [hsum] at h; omega)
    refine ⟨(a.used, n) :: rs, b, ?_, hcap, ?_, ?_, ?_⟩
    · unfold MemoryArena.PushSeq
      rw [hpush]
      simp only []
      rw [hseq]
    · rw [hused, hsum]
      simp only []
      omega
    · intro r hr
      rcases List.mem_cons.mp hr with hr1 | hr2
      · subst hr1
        refine ⟨le_refl _, ?_⟩
        rw [hused]
        simp only []
        omega
      · have := hbounds r hr2
        simp only [] at this
        exact ⟨by omega, this.2⟩
    · refine List.Pairwise.cons ?_ hpair
      intro r hr
      have := (hbounds r hr).1
      simp only [] at this
      omega

/-- Claim C5: for any sequence of `PushSize` requests on an initialized
arena whose total does not exceed capacity, all requests succeed, the
returned regions are pairwise disjoint, and the final `used` is the sum
of the sizes; moreover any successful `PushSize` (the assertion not
having fired) leaves `used ≤ capacity`. -/
theorem arena_pushSize_disjoint_and_bounded (cap : Nat) (ns : List Nat)
    (h : ns.sum ≤ cap) :
    (∃ rs b, (MemoryArena.Init cap).PushSeq ns = some (rs, b) ∧
      b.used = ns.sum ∧
      rs.Pairwise RegionsDisjoint) ∧
    (∀ (a : MemoryArena) (n off : Nat) (b : MemoryArena),
      a.PushSize n = some (off, b) → b.used ≤ b.capacity) := by
  constructor
  · obtain ⟨rs, b, hseq, hcap, hused, hbounds, hpair⟩ :=
      pushSeq_spec ns (MemoryArena.Init cap) (by simp [MemoryArena.Init, h])
    refine ⟨rs, b, hseq, by simpa [MemoryArena.Init] using hused, ?_⟩
    exact hpair.imp fun hle => Or.inl hle
  · intro a n off b hab
    unfold MemoryArena.PushSize at hab
    by_cases hc : a.used + n ≤ a.capacity
    · rw [if_pos hc] at hab
      cases hab
      exact hc
    · rw [if_neg hc] at hab
      cases hab

/-- Witness for C5: requests of sizes 3, 4, 2 on an arena of
capacity 10. -/
theorem arena_pushSize_witness :
    ([3, 4, 2] : List Nat).sum ≤ 10 ∧
    ((∃ rs b, (MemoryArena.Init 10).PushSeq [3, 4, 2] = some (rs, b) ∧
      b.used = ([3, 4, 2] : List Nat).sum ∧
      rs.Pairwise RegionsDisjoint) ∧
    (∀ (a : MemoryArena) (n off : Nat) (b : MemoryArena),
      a.PushSize n = some (off, b) → b.used ≤ b.capacity)) :=
  ⟨by decide, arena_pushSize_disjoint_and_bounded 10 [3, 4, 2] (by decide)⟩

/-! ## Claim C1: live ids are unique -/

/-- Well-formedness of a store state, the inductive invariant of
`Create`/`Destroy`: live slots and free slots are in range, both lists
are duplicate-free and disjoint, and the live ids are below the
generation counter and pairwise distinct. -/
structure MgrWF (m : GameObjectManager) : Prop where
  gosLt : ∀ s ∈ m.gos, s < m.heap.length
  freeLt : ∀ s ∈ m.firstFree, s < m.heap.length
  gosNodup : m.gos.Nodup
  freeNodup : m.firstFree.Nodup
  disj : ∀ s ∈ m.gos, s ∉ m.firstFree
  idLt : ∀ s ∈ m.gos, m.idAt s < m.genId
  idsNodup : (m.gos.map m.idAt).Nodup

theorem initMgr_wf : MgrWF initMgr := by
  constructor <;> simp [initMgr]

theorem create_wf {m : GameObjectManager} {s : Nat} {m2 : GameObjectManager}
    (h : m.Create = some (s, m2)) (hwf : MgrWF m) : MgrWF m2 := by
  unfold GameObjectManager.Create at h
  split at h
  next s0 rest hfree =>
    -- recycled slot popped from the free list
    split at h
    next hg =>
      injection h with h
      injection h with hs hm2
      subst hs hm2
      have hs0lt : s0 < m.heap.length := by
        apply hwf.freeLt
        rw [hfree]
        exact List.mem_cons_self _ _
      have hs0gos : s0 ∉ m.gos := by
        intro hmem
        have := hwf.disj s0 hmem
        rw [hfree] at this
        exact this (List.mem_cons_self _ _)
      have hrest : rest.Nodup ∧ s0 ∉ rest := by
        have := hwf.freeNodup
        rw [hfree, List.nodup_cons] at this
        exact ⟨this.2, this.1⟩
      have hidOld : ∀ x ∈ m.gos,
          GameObjectManager.idAt
            ⟨m.genId + 1, m.heap.set s0 ⟨m.genId⟩, rest, m.gos ++ [s0]⟩ x
            = m.idAt x := by
        intro x hx
        show (((m.heap.set s0 ⟨m.genId⟩)[x]?).getD default).id = _
        rw [List.getElem?_set_ne (show s0 ≠ x by
          intro hxeq
          subst hxeq
          exact hs0gos hx)]
        rfl
      have hidNew :
          GameObjectManager.idAt
            ⟨m.genId + 1, m.heap.set s0 ⟨m.genId⟩, rest, m.gos ++ [s0]⟩ s0
            = m.genId := by
        show (((m.heap.set s0 ⟨m.genId⟩)[s0]?).getD default).id = _
        rw [List.getElem?_set_self hs0lt]
        rfl
      constructor
      · intro x hx
        simp only [List.length_set]
        rcases List.mem_append.mp hx with hx1 | hx2
        · exact hwf.gosLt x hx1
        · simp only [List.mem_singleton] at hx2
          subst hx2
          exact hs0lt
      · intro x hx
        simp only [List.length_set]
        apply hwf.freeLt
        rw [hfree]
        exact List.mem_cons_of_mem _ hx
      · show (m.gos ++ [s0]).Nodup
        rw [List.nodup_append]
        refine ⟨hwf.gosNodup, List.nodup_singleton _, ?_⟩
        intro x hx hmem
        simp only [List.mem_singleton] at hmem
        subst hmem
        exact hs0gos hx
      · exact hrest.1
      · intro x hx
        rcases List.mem_append.mp hx with hx1 | hx2
        · intro hmem
          have := hwf.disj x hx1
          rw [hfree] at this
          exact this (List.mem_cons_of_mem _ hmem)
        · simp only [List.mem_singleton] at hx2
          subst hx2
          exact hrest.2
      · intro x hx
        rcases List.mem_append.mp hx with hx1 | hx2
        · rw [hidOld x hx1]
          exact lt_trans (hwf.idLt x hx1) (Nat.lt_succ_self _)
        · simp only [List.mem_singleton] at hx2
          subst hx2
          rw [hidNew]
          exact Nat.lt_succ_self _
      · show ((m.gos ++ [s0]).map _).Nodup
        rw [List.map_append, List.map_congr_left hidOld, List.nodup_append]
        refine ⟨hwf.idsNodup, List.nodup_singleton _, ?_⟩
        intro x hx hmem
        simp only [List.map_singleton, hidNew, List.mem_singleton] at hmem
        subst hmem
        obtain ⟨y, hy, hyx⟩ := List.mem_map.mp hx
        have := hwf.idLt y hy
        rw [hyx] at this
        exact absurd this (lt_irrefl _)
    next hg => cases h
  next hfree =>
    -- fresh slot bump-allocated from the arena
    split at h
    next hg =>
      injection h with h
      injection h with hs hm2
      subst hs hm2
      have hidOld : ∀ x ∈ m.gos,
          GameObjectManager.idAt
            ⟨m.genId + 1, m.heap ++ [⟨m.genId⟩], [], m.gos ++ [m.heap.length]⟩ x
            = m.idAt x := by
        intro x hx
        show (((m.heap ++ [(⟨m.genId⟩ : GameObject)])[x]?).getD default).id = _
        rw [List.getElem?_append_left (hwf.gosLt x hx)]
        rfl
      have hidNew :
          GameObjectManager.idAt
            ⟨m.genId + 1, m.heap ++ [⟨m.genId⟩], [], m.gos ++ [m.heap.length]⟩
            m.heap.length = m.genId := by
        show (((m.heap ++ [(⟨m.genId⟩ : GameObject)])[m.heap.length]?).getD default).id = _
        rw [List.getElem?_append_right (le_refl _)]
        simp
      constructor
      · intro x hx
        simp only [List.length_append, List.length_singleton]
        rcases List.mem_append.mp hx with hx1 | hx2
        · have := hwf.gosLt x hx1
          omega
        · simp only [List.mem_singleton] at hx2
          omega
      · intro x hx
        exact absurd hx (List.not_mem_nil x)
      · show (m.gos ++ [m.heap.length]).Nodup
        rw [List.nodup_append]
        refine ⟨hwf.gosNodup, List.nodup_singleton _, ?_⟩
        intro x hx hmem
        simp only [List.mem_singleton] at hmem
        subst hmem
        exact absurd (hwf.gosLt _ hx) (lt_irrefl _)
      · exact List.nodup_nil
      · intro x hx
        exact List.not_mem_nil x
      · intro x hx
        rcases List.mem_append.mp hx with hx1 | hx2
        · rw [hidOld x hx1]
          exact lt_trans (hwf.idLt x hx1) (Nat.lt_succ_self _)
        · simp only [List.mem_singleton] at hx2
          subst hx2
          rw [hidNew]
          exact Nat.lt_succ_self _
      · show ((m.gos ++ [m.heap.length]).map _).Nodup
        rw [List.map_append, List.map_congr_left hidOld, List.nodup_append]
        refine ⟨hwf.idsNodup, List.nodup_singleton _, ?_⟩
        intro x hx hmem
        simp only [List.map_singleton, hidNew, List.mem_singleton] at hmem
        subst hmem
        obtain ⟨y, hy, hyx⟩ := List.mem_map.mp hx
        have := hwf.idLt y hy
        rw [hyx] at this
        exact absurd this (lt_irrefl _)
    next hg => cases h

theorem getIndexLoop_live {m : GameObjectManager} (hwf : MgrWF m) {k : Nat}
    (hk : k < m.gos.length) :
    GetIndexLoop m.heap (m.idAt m.gos[k]) m.gos = some k := by
  have hdecomp : m.gos.take k ++ m.gos[k] :: m.gos.drop (k + 1) = m.gos := by
    rw [List.getElem_cons_drop, List.take_append_drop]
  have hpre : ∀ s2 ∈ m.gos.take k,
      ((m.heap[s2]?).getD default).id ≠ m.idAt m.gos[k] := by
    intro s2 hs2 heq
    have hnd := hwf.idsNodup
    rw [← hdecomp, List.map_append, List.map_cons, List.nodup_append] at hnd
    apply hnd.2.2 (List.mem_map.mpr ⟨s2, hs2, rfl⟩)
    rw [show ((m.heap[s2]?).getD default).id = m.idAt s2 from rfl] at heq
    rw [heq]
    exact List.mem_cons_self _ _
  have hsome := getIndexLoop_eq_some m.heap (m.idAt m.gos[k])
    (m.gos.take k) m.gos[k] (m.gos.drop (k + 1)) hpre rfl
  rw [hdecomp, List.length_take, Nat.min_eq_left hk.le] at hsome
  exact hsome

theorem destroy_wf {m : GameObjectManager} (hwf : MgrWF m) {k : Nat}
    (hk : k < m.gos.length) : MgrWF (m.Destroy m.gos[k]) := by
  have hsmem : m.gos[k] ∈ m.gos := List.getElem_mem hk
  have hDest : m.Destroy m.gos[k] =
      { m with firstFree := m.gos[k] :: m.firstFree,
               gos := RemoveByIndex m.gos k } := by
    simp only [GameObjectManager.Destroy]
    have hidx : GameObjectManager.GetIndex
        ⟨m.genId, m.heap, m.gos[k] :: m.firstFree, m.gos⟩ m.gos[k] = k := by
      show (GetIndexLoop m.heap (m.idAt m.gos[k]) m.gos).getD 0 = k
      rw [getIndexLoop_live hwf hk]
      rfl
    rw [hidx]
  rw [hDest]
  have hperm := removeByIndex_perm m.gos k hk
  have hsub : ∀ x ∈ RemoveByIndex m.gos k, x ∈ m.gos :=
    removeByIndex_subset m.gos k hk
  have hnotmem : m.gos[k] ∉ RemoveByIndex m.gos k := by
    intro hmem
    exact nodup_eraseIdx_not_mem m.gos k hk hwf.gosNodup
      (hperm.mem_iff.mp hmem)
  constructor
  · intro x hx
    exact hwf.gosLt x (hsub x hx)
  · intro x hx
    rcases List.mem_cons.mp hx with hx1 | hx2
    · subst hx1
      exact hwf.gosLt _ hsmem
    · exact hwf.freeLt x hx2
  · exact hperm.nodup_iff.mpr
      (List.Nodup.sublist (List.eraseIdx_sublist m.gos k) hwf.gosNodup)
  · exact List.nodup_cons.mpr ⟨hwf.disj _ hsmem, hwf.freeNodup⟩
  · intro x hx hmem
    rcases List.mem_cons.mp hmem with hx1 | hx2
    · subst hx1
      exact hnotmem hx
    · exact hwf.disj x (hsub x hx) hx2
  · intro x hx
    exact hwf.idLt x (hsub x hx)
  · exact (hperm.map m.idAt).nodup_iff.mpr
      (List.Nodup.sublist ((List.eraseIdx_sublist m.gos k).map m.idAt)
        hwf.idsNodup)

theorem storeStep_wf {m m2 : GameObjectManager} {op : StoreOp}
    (h : storeStep m op = some m2) (hwf : MgrWF m) : MgrWF m2 := by
  cases op with
  | create =>
    simp only [storeStep] at h
    obtain ⟨⟨s, m3⟩, hcreate, hm3⟩ := Option.map_eq_some'.mp h
    subst hm3
    exact create_wf hcreate hwf
  | destroy k =>
    simp only [storeStep] at h
    by_cases hk : k < m.gos.length
    · rw [if_pos hk] at h
      injection h with h
      subst h
      rw [List.getD_eq_getElem m.gos 0 hk]
      exact destroy_wf hwf hk
    · rw [if_neg hk] at h
      injection h with h
      subst h
      exact hwf

theorem storeExec_wf (ops : List StoreOp) (m m2 : GameObjectManager)
    (h : storeExec m ops = some m2) (hwf : MgrWF m) : MgrWF m2 := by
  induction ops generalizing m with
  | nil =>
    unfold storeExec at h
    injection h with h
    subst h
    exact hwf
  | cons op ops ih =>
    unfold storeExec at h
    split at h
    next m1 hstep => exact ih m1 h (storeStep_wf hstep hwf)
    next => cases h

/-- Claim C1: for every sequence of `Create`/`Destroy` calls starting
from a freshly initialized store (`Destroy` called on live entities),
the ids of the entities simultaneously in the live list are pairwise
distinct: the generation counter is monotone and each created or
recycled entity receives its next value. -/
theorem create_destroy_live_ids_unique (ops : List StoreOp)
    (m : GameObjectManager) (h : storeExec initMgr ops = some m) :
    (m.gos.map m.idAt).Nodup :=
  (storeExec_wf ops initMgr m h initMgr_wf).idsNodup

/-- Witness for C1: create two entities, destroy the first, create a
third (recycling the freed slot); the two live entities carry the
distinct ids 1 and 2. -/
theorem create_destroy_live_ids_unique_witness :
    storeExec initMgr [.create, .create, .destroy 0, .create] =
      some (⟨3, [⟨2⟩, ⟨1⟩], [], [1, 0]⟩ : GameObjectManager) ∧
    (((⟨3, [⟨2⟩, ⟨1⟩], [], [1, 0]⟩ : GameObjectManager).gos.map
        (⟨3, [⟨2⟩, ⟨1⟩], [], [1, 0]⟩ : GameObjectManager).idAt).Nodup) :=
  ⟨by decide,
    create_destroy_live_ids_unique [.create, .create, .destroy 0, .create]
      (⟨3, [⟨2⟩, ⟨1⟩], [], [1, 0]⟩ : GameObjectManager) (by decide)⟩

/-! ## Claim C10: Destroy with a stale entity -/

/-- Claim C10: when `Destroy` is passed an entity whose id matches no
entry of the non-empty live list, the entity is still pushed onto the
free list, `GetIndex` falls back to 0, and swap-with-last removal
evicts the element at index 0 — so when the head of the live list
occurs only once, a live entity unrelated to the argument disappears
from the live list. -/
theorem destroy_stale_entity_evicts_head (m : GameObjectManager) (s g0 : Nat)
    (rest : List Nat) (hgos : m.gos = g0 :: rest)
    (hmiss : ∀ s2 ∈ m.gos, m.idAt s2 ≠ m.idAt s) (hg0 : g0 ∉ rest) :
    (m.Destroy s).firstFree = s :: m.firstFree ∧
    (m.Destroy s).gos = RemoveByIndex m.gos 0 ∧
    g0 ∉ (m.Destroy s).gos := by
  have hloop : GetIndexLoop m.heap (m.idAt s) m.gos = none :=
    getIndexLoop_eq_none m.heap (m.idAt s) m.gos hmiss
  have hDest : m.Destroy s =
      { m with firstFree := s :: m.firstFree,
               gos := RemoveByIndex m.gos 0 } := by
    simp only [GameObjectManager.Destroy]
    have hidx : GameObjectManager.GetIndex
        ⟨m.genId, m.heap, s :: m.firstFree, m.gos⟩ s = 0 := by
      show (GetIndexLoop m.heap (m.idAt s) m.gos).getD 0 = 0
      rw [hloop]
      rfl
    rw [hidx]
  refine ⟨by rw [hDest], by rw [hDest], ?_⟩
  rw [hDest]
  show g0 ∉ RemoveByIndex m.gos 0
  rw [hgos]
  intro hmem
  rcases hrest : rest with _ | ⟨r1, rs⟩
  · subst hrest
    simp [RemoveByIndex] at hmem
  · have hne : g0 :: rest ≠ [] := List.cons_ne_nil _ _
    have hrem : RemoveByIndex (g0 :: rest) 0 =
        ((g0 :: rest).set 0 ((g0 :: rest).getLast hne)).dropLast := by
      unfold RemoveByIndex
      rw [List.getLast?_eq_getLast _ hne]
    rw [hrem] at hmem
    have hset : (g0 :: rest).set 0 ((g0 :: rest).getLast hne) =
        (g0 :: rest).getLast hne :: rest := by
      rfl
    rw [hset] at hmem
    have hmem2 : g0 ∈ (g0 :: rest).getLast hne :: rest :=
      (List.dropLast_sublist _).mem hmem
    have hlast : (g0 :: rest).getLast hne ∈ rest := by
      rw [List.getLast_cons (by rw [hrest]; exact List.cons_ne_nil _ _)]
      exact List.getLast_mem _
    rcases List.mem_cons.mp hmem2 with hx1 | hx2
    · rw [hx1] at hg0
      exact hg0 hlast
    · exact hg0 hx2

/-- Witness for C10: live list `[0, 1]` over heap ids `[1, 2]`,
destroying the stale slot 2 (id 5): slot 2 goes to the free list and
live slot 0 disappears. -/
theorem destroy_stale_entity_evicts_head_witness :
    ((⟨6, [⟨1⟩, ⟨2⟩, ⟨5⟩], [], [0, 1]⟩ : GameObjectManager).Destroy 2).firstFree
        = 2 :: (⟨6, [⟨1⟩, ⟨2⟩, ⟨5⟩], [], [0, 1]⟩ : GameObjectManager).firstFree ∧
    ((⟨6, [⟨1⟩, ⟨2⟩, ⟨5⟩], [], [0, 1]⟩ : GameObjectManager).Destroy 2).gos
        = RemoveByIndex (⟨6, [⟨1⟩, ⟨2⟩, ⟨5⟩], [], [0, 1]⟩ : GameObjectManager).gos 0 ∧
    0 ∉ ((⟨6, [⟨1⟩, ⟨2⟩, ⟨5⟩], [], [0, 1]⟩ : GameObjectManager).Destroy 2).gos :=
  destroy_stale_entity_evicts_head
    (⟨6, [⟨1⟩, ⟨2⟩, ⟨5⟩], [], [0, 1]⟩ : GameObjectManager) 2 0 [1]
    rfl (by decide) (by decide)

/-! ## Claim C7: win transition is two-phased -/

/-- Claim C7: in `RunGame`, a tick after which the live block count
equals `hitScore` sets the state to `PreGameWin`; on the very next tick
the `PreGameWin` case unconditionally records the current draw buffer
into the frozen buffer, starts the reset timer, and moves to
`GameWin`. -/
theorem rungame_win_two_phase (esc esc2 : Bool) (t1 t2 : ℚ)
    (tickFn resetFn tickFn2 resetFn2 : GState → GState)
    (item item2 : DrawItem) (st : GState)
    (h0 : st.gameplayState = .RunGame)
    (hwin : (tickFn (escStep esc st)).blocksNum =
      (tickFn (escStep esc st)).hitScore) :
    (UpdateGame esc t1 tickFn resetFn item st).gameplayState = .PreGameWin ∧
    UpdateGame esc2 t2 tickFn2 resetFn2 item2
        (UpdateGame esc t1 tickFn resetFn item st) =
      { tickFn (escStep esc st) with
          gameplayState := .GameWin
          resetTimer := t2
          recordedDrawings := (tickFn (escStep esc st)).drawMgr.Record
            (tickFn (escStep esc st)).recordedDrawings } := by
  have h1 : UpdateGame esc t1 tickFn resetFn item st =
      { tickFn (escStep esc st) with gameplayState := .PreGameWin } := by
    simp only [UpdateGame, h0]
    rw [if_pos hwin]
  constructor
  · rw [h1]
  · rw [h1]
    simp only [UpdateGame]

/-- Witness for C7: a concrete `RunGame` state with 5 blocks and hit
score 5 (identity tick), stepped twice. -/
theorem rungame_win_two_phase_witness :
    ((⟨.RunGame, 5, 5, ⟨[], []⟩, ⟨[], []⟩, 0⟩ : GState).gameplayState
        = .RunGame) ∧
    ((UpdateGame false 1 id id {}
        (⟨.RunGame, 5, 5, ⟨[], []⟩, ⟨[], []⟩, 0⟩ : GState)).gameplayState
          = .PreGameWin ∧
      UpdateGame false 2 id id {}
          (UpdateGame false 1 id id {}
            (⟨.RunGame, 5, 5, ⟨[], []⟩, ⟨[], []⟩, 0⟩ : GState)) =
        (⟨.GameWin, 5, 5, ⟨[], []⟩, ⟨[], []⟩, 2⟩ : GState)) :=
  ⟨rfl, rungame_win_two_phase false false 1 2 id id id id {} {}
    (⟨.RunGame, 5, 5, ⟨[], []⟩, ⟨[], []⟩, 0⟩ : GState) rfl rfl⟩

/-! ## Claim C2: AABB-vs-circle at the spec test point -/

/-- Claim C2 as stated is false on the code: for the box centered at
(0,0) with half-extents (10,10) and the circle of radius 5 at (12,0),
the manifold's `diff` field is `closestPoint - circle.center`
= (10,0) - (12,0) = (-2,0), whose x-component is negative, so the
separation vector does not point along the positive x axis. -/
theorem c2_counterexample :
    (AABBvsCircle ⟨⟨0, 0⟩, ⟨10, 10⟩⟩ ⟨⟨12, 0⟩, 5⟩).diff = ⟨-2, 0⟩ ∧
    ¬ 0 < (AABBvsCircle ⟨⟨0, 0⟩, ⟨10, 10⟩⟩ ⟨⟨12, 0⟩, 5⟩).diff.x := by
  have hdiff : (AABBvsCircle ⟨⟨0, 0⟩, ⟨10, 10⟩⟩ ⟨⟨12, 0⟩, 5⟩).diff = ⟨-2, 0⟩ := by
    show Vector2Subtract
        (Vector2Add ⟨0, 0⟩
          (Vector2Clamp (Vector2Subtract ⟨12, 0⟩ ⟨0, 0⟩)
            (Vector2Negate ⟨10, 10⟩) ⟨10, 10⟩)) ⟨12, 0⟩ = ⟨-2, 0⟩
    unfold Vector2Subtract Vector2Add Vector2Clamp Vector2Negate
    rw [Vec2.mk.injEq]
    norm_num [min_def, max_def]
  refine ⟨hdiff, ?_⟩
  rw [hdiff]
  norm_num

/-- Claim C2 (amended): at the same input the manifold has
`collides = true`, `penetration = 3`, and `diff = (-2, 0)` — the
separation vector points along the negative x axis, from the circle's
center toward the closest point on the box. -/
theorem c2_amended_eval :
    (AABBvsCircle ⟨⟨0, 0⟩, ⟨10, 10⟩⟩ ⟨⟨12, 0⟩, 5⟩).diff = ⟨-2, 0⟩ ∧
    (AABBvsCircle ⟨⟨0, 0⟩, ⟨10, 10⟩⟩ ⟨⟨12, 0⟩, 5⟩).penetration = 3 ∧
    (AABBvsCircle ⟨⟨0, 0⟩, ⟨10, 10⟩⟩ ⟨⟨12, 0⟩, 5⟩).collides := by
  have hclamp : Vector2Clamp (Vector2Subtract ⟨12, 0⟩ ⟨0, 0⟩)
      (Vector2Negate ⟨10, 10⟩) ⟨10, 10⟩ = (⟨10, 0⟩ : Vec2) := by
    unfold Vector2Clamp Vector2Subtract Vector2Negate
    rw [Vec2.mk.injEq]
    norm_num [min_def, max_def]
  have hdist : Vector2Subtract
      (Vector2Add ⟨0, 0⟩
        (Vector2Clamp (Vector2Subtract ⟨12, 0⟩ ⟨0, 0⟩)
          (Vector2Negate ⟨10, 10⟩) ⟨10, 10⟩)) ⟨12, 0⟩ = (⟨-2, 0⟩ : Vec2) := by
    rw [hclamp]
    unfold Vector2Subtract Vector2Add
    rw [Vec2.mk.injEq]
    norm_num
  have hlen : Vector2Length (⟨-2, 0⟩ : Vec2) = 2 := by
    unfold Vector2Length
    rw [show ((⟨-2, 0⟩ : Vec2).x * (⟨-2, 0⟩ : Vec2).x +
      (⟨-2, 0⟩ : Vec2).y * (⟨-2, 0⟩ : Vec2).y) = (2 : ℝ) ^ 2 from by norm_num]
    exact Real.sqrt_sq (by norm_num)
  refine ⟨?_, ?_, ?_⟩
  · show Vector2Subtract
        (Vector2Add ⟨0, 0⟩
          (Vector2Clamp (Vector2Subtract ⟨12, 0⟩ ⟨0, 0⟩)
            (Vector2Negate ⟨10, 10⟩) ⟨10, 10⟩)) ⟨12, 0⟩ = ⟨-2, 0⟩
    exact hdist
  · show (5 : ℝ) - |Vector2Length (Vector2Subtract
        (Vector2Add ⟨0, 0⟩
          (Vector2Clamp (Vector2Subtract ⟨12, 0⟩ ⟨0, 0⟩)
            (Vector2Negate ⟨10, 10⟩) ⟨10, 10⟩)) ⟨12, 0⟩)| = 3
    rw [hdist, hlen]
    norm_num
  · show Vector2Length (Vector2Subtract
        (Vector2Add ⟨0, 0⟩
          (Vector2Clamp (Vector2Subtract ⟨12, 0⟩ ⟨0, 0⟩)
            (Vector2Negate ⟨10, 10⟩) ⟨10, 10⟩)) ⟨12, 0⟩) ≤ 5
    rw [hdist, hlen]
    norm_num

/-! ## Claim C3: block-collision resolution on a side face -/

/-- Claim C3 identifies a bug the spec already flags: on a Right (or
Left) face the position is pushed out along x by `penetration`, but the
velocity update is the literal `m_velocity.x -= m_velocity.x`, which
zeroes the component instead of inverting it.  At separation vector
(3,0), penetration 2, position (0,0), velocity (100,-50), the code
yields velocity (0,-50), not (-100,-50). -/
theorem resolveBlock_side_zeroes_velocity :
    ResolveBlockCollision ⟨3, 0⟩ 2 ⟨0, 0⟩ ⟨100, -50⟩ =
      (⟨2, 0⟩, ⟨0, -50⟩) ∧
    (ResolveBlockCollision ⟨3, 0⟩ 2 ⟨0, 0⟩ ⟨100, -50⟩).2.x ≠ -(100 : ℝ) := by
  have hlen : Vector2Length (⟨3, 0⟩ : Vec2) = 3 := by
    unfold Vector2Length
    rw [show ((⟨3, 0⟩ : Vec2).x * (⟨3, 0⟩ : Vec2).x +
      (⟨3, 0⟩ : Vec2).y * (⟨3, 0⟩ : Vec2).y) = (3 : ℝ) ^ 2 from by norm_num]
    exact Real.sqrt_sq (by norm_num)
  have hnorm : Vector2Normalize (⟨3, 0⟩ : Vec2) = ⟨1, 0⟩ := by
    unfold Vector2Normalize
    rw [hlen, if_pos (by norm_num : (0 : ℝ) < 3)]
    rw [Vec2.mk.injEq]
    norm_num
  have hclass : ClassifyCollision (⟨1, 0⟩ : Vec2) = .right := by
    unfold ClassifyCollision Vector2DotProduct
    rw [if_neg (by norm_num), if_neg (by norm_num), if_pos (by norm_num)]
  have hres : ResolveBlockCollision ⟨3, 0⟩ 2 ⟨0, 0⟩ ⟨100, -50⟩ =
      (⟨2, 0⟩, ⟨0, -50⟩) := by
    simp only [ResolveBlockCollision]
    rw [hnorm, hclass]
    rw [Prod.mk.injEq, Vec2.mk.injEq, Vec2.mk.injEq]
    norm_num
  refine ⟨hres, ?_⟩
  rw [hres]
  norm_num

/-! ## Claim C6: dead-center paddle hit -/

/-- Claim C6: when the ball's center x equals the paddle's center x
(and the paddle has nonzero width, the ball nonzero vertical speed),
`ResolvePlayerCollision` returns a velocity with zero x-component,
negative (upward) y-component, and unchanged magnitude. -/
theorem resolvePlayer_dead_center (pc bc psize vel : Vec2)
    (hcenter : bc.x = pc.x) (_hw : psize.x ≠ 0) (hy : vel.y ≠ 0) :
    (ResolvePlayerCollision pc bc psize vel).x = 0 ∧
    (ResolvePlayerCollision pc bc psize vel).y < 0 ∧
    Vector2Length (ResolvePlayerCollision pc bc psize vel) =
      Vector2Length vel := by
  have habs : (0 : ℝ) < |vel.y| := abs_pos.mpr hy
  have hLpos : 0 < Vector2Length vel := by
    unfold Vector2Length
    apply Real.sqrt_pos.mpr
    have h1 : 0 < vel.y * vel.y := mul_self_pos.mpr hy
    nlinarith [mul_self_nonneg vel.x]
  have hxcalc : INIT_VELOCITY.x * 2.5 * ((bc.x - pc.x) / (psize.x * 0.5)) = 0 := by
    rw [hcenter]
    simp
  have hlen1 : Vector2Length ⟨0, -1 * |vel.y|⟩ = |vel.y| := by
    unfold Vector2Length
    rw [show ((⟨0, -1 * |vel.y|⟩ : Vec2).x * (⟨0, -1 * |vel.y|⟩ : Vec2).x +
        (⟨0, -1 * |vel.y|⟩ : Vec2).y * (⟨0, -1 * |vel.y|⟩ : Vec2).y)
        = |vel.y| * |vel.y| from by ring]
    rw [Real.sqrt_mul_self_eq_abs, abs_abs]
  have hnorm : Vector2Normalize ⟨0, -1 * |vel.y|⟩ = ⟨0, -1⟩ := by
    unfold Vector2Normalize
    rw [hlen1, if_pos habs, Vec2.mk.injEq]
    constructor
    · exact zero_div _
    · field_simp
  have hres : ResolvePlayerCollision pc bc psize vel =
      ⟨0 * Vector2Length vel, -1 * Vector2Length vel⟩ := by
    simp only [ResolvePlayerCollision]
    rw [hxcalc, hnorm]
    rfl
  refine ⟨?_, ?_, ?_⟩
  · rw [hres]
    simp
  · rw [hres]
    show -1 * Vector2Length vel < 0
    nlinarith [hLpos]
  · rw [hres]
    generalize hL : Vector2Length vel = L
    rw [hL] at hLpos
    unfold Vector2Length
    rw [show ((⟨0 * L, -1 * L⟩ : Vec2).x * (⟨0 * L, -1 * L⟩ : Vec2).x +
        (⟨0 * L, -1 * L⟩ : Vec2).y * (⟨0 * L, -1 * L⟩ : Vec2).y)
        = L * L from by ring]
    rw [Real.sqrt_mul_self_eq_abs]
    exact abs_of_pos hLpos

/-- Witness for C6: paddle center (0,0), width 128, ball center x = 0,
incoming velocity (100, -660). -/
theorem resolvePlayer_dead_center_witness :
    ((⟨0, -5⟩ : Vec2).x = (⟨0, 0⟩ : Vec2).x ∧ (⟨128, 32⟩ : Vec2).x ≠ 0 ∧
      (⟨100, -660⟩ : Vec2).y ≠ 0) ∧
    ((ResolvePlayerCollision ⟨0, 0⟩ ⟨0, -5⟩ ⟨128, 32⟩ ⟨100, -660⟩).x = 0 ∧
      (ResolvePlayerCollision ⟨0, 0⟩ ⟨0, -5⟩ ⟨128, 32⟩ ⟨100, -660⟩).y < 0 ∧
      Vector2Length (ResolvePlayerCollision ⟨0, 0⟩ ⟨0, -5⟩ ⟨128, 32⟩ ⟨100, -660⟩) =
        Vector2Length ⟨100, -660⟩) :=
  ⟨⟨rfl, by norm_num, by norm_num⟩,
    resolvePlayer_dead_center ⟨0, 0⟩ ⟨0, -5⟩ ⟨128, 32⟩ ⟨100, -660⟩
      rfl (by norm_num) (by norm_num)⟩

end Breakout
